import Mathlib

/-!
Verification development for the explainer-video pipeline.

The definitions below are a shallow embedding of the repository's Python
sources:

* `video_explainer_generator.py` — planner-response parsing/repair
  (`analyze_text_for_video`) and plan creation (`create_video_script`);
* `video_compiler.py` — the media compiler (`get_segment_duration`,
  `compile_segment`, `compile_all_segments`, `create_video_list_file`,
  `concatenate_videos`, `compile_complete_video`);
* `create_explainer_video.py` / `main.py` — job-root allocation and the
  stage orchestrator (`create_complete_video_assets`).

External effects (the filesystem, the ffmpeg/ffprobe subprocesses, the
TTS and image services) are modelled as explicit environment records, as
the specification itself prescribes for the external encoder
("probe(path) -> duration", "encode(spec) -> exitcode/stderr").  Python
`float` durations are modelled as rationals; Python `int` as `Int`.
-/

namespace Explainer

/-! ### Python string primitives, on `List Char`

These model the exact CPython string operations used by
`analyze_text_for_video` (`strip`, `startswith`, `endswith`, slicing,
`find`, `rfind`, `split('\n')`, `'\n'.join`, `isalpha`, `replace`), for
the ASCII range in which all the pipeline's delimiter tests live.
-/

/-- Whitespace recognised by Python `str.strip()` and by the regex class
`\s`, restricted to the ASCII range. -/
def isPySpace (c : Char) : Bool :=
  c = ' ' || c = '\t' || c = '\n' || c = '\r' || c = '\x0b' || c = '\x0c'

/-- Python `str.lstrip()`. -/
def pyLstrip (l : List Char) : List Char := l.dropWhile isPySpace

/-- Python `str.rstrip()`. -/
def pyRstrip (l : List Char) : List Char := (l.reverse.dropWhile isPySpace).reverse

/-- Python `str.strip()`. -/
def pyStrip (l : List Char) : List Char := pyLstrip (pyRstrip l)

/-- Python `str.find(c)`: index of the first occurrence, `none` for -1. -/
def pyFind (c : Char) (l : List Char) : Option Nat := l.findIdx? (· == c)

/-- Python `str.rfind(c)`: index of the last occurrence, `none` for -1. -/
def pyRfind (c : Char) (l : List Char) : Option Nat :=
  match l.reverse.findIdx? (· == c) with
  | some i => some (l.length - 1 - i)
  | none => none

/-- Python `str.split('\n')` (keeps empty pieces; `"" -> [""]`). -/
def splitNL : List Char → List (List Char)
  | [] => [[]]
  | c :: rest =>
    if c = '\n' then [] :: splitNL rest
    else
      match splitNL rest with
      | [] => [[c]]
      | line :: ls => (c :: line) :: ls

/-- Python `'\n'.join(lines)`. -/
def joinNL (ls : List (List Char)) : List Char := List.intercalate ['\n'] ls

/-! ### JSON values and a model of Python `json.loads`

`analyze_text_for_video` hands the cleaned response to `json.loads`; we
model the strict JSON grammar that `json.loads` accepts (numbers as
rationals, strings as character lists, objects as ordered key/value
lists).  The recursion is fuelled; `jsonLoads` supplies fuel larger than
the input length, which bounds the nesting depth.
-/

inductive Json where
  | null : Json
  | bool (b : Bool) : Json
  | num (v : ℚ) : Json
  | str (s : List Char) : Json
  | arr (elems : List Json) : Json
  | obj (members : List (List Char × Json)) : Json

/-- JSON insignificant whitespace (what `json.loads` skips between tokens). -/
def isJsonWs (c : Char) : Bool := c = ' ' || c = '\t' || c = '\n' || c = '\r'

/-- Drop insignificant JSON whitespace. -/
def skipWs (l : List Char) : List Char := l.dropWhile isJsonWs

/-- Value of a hex digit, if the character is one. -/
def hexVal (c : Char) : Option Nat :=
  if '0' ≤ c ∧ c ≤ '9' then some (c.toNat - 48)
  else if 'a' ≤ c ∧ c ≤ 'f' then some (c.toNat - 87)
  else if 'A' ≤ c ∧ c ≤ 'F' then some (c.toNat - 55)
  else none

/-- Parse the body of a JSON string after the opening quote, returning the
decoded characters and the input remaining after the closing quote.
Control characters are rejected, as in strict `json.loads`. -/
def parseStringBody : List Char → Option (List Char × List Char)
  | [] => none
  | '\"' :: rest => some ([], rest)
  | '\\' :: e :: rest =>
    match e with
    | '\"' => (parseStringBody rest).map (fun p => ('\"' :: p.1, p.2))
    | '\\' => (parseStringBody rest).map (fun p => ('\\' :: p.1, p.2))
    | '/' => (parseStringBody rest).map (fun p => ('/' :: p.1, p.2))
    | 'b' => (parseStringBody rest).map (fun p => ('\x08' :: p.1, p.2))
    | 'f' => (parseStringBody rest).map (fun p => ('\x0c' :: p.1, p.2))
    | 'n' => (parseStringBody rest).map (fun p => ('\n' :: p.1, p.2))
    | 'r' => (parseStringBody rest).map (fun p => ('\r' :: p.1, p.2))
    | 't' => (parseStringBody rest).map (fun p => ('\t' :: p.1, p.2))
    | 'u' =>
      match rest with
      | a :: b :: c :: d :: rest' =>
        match hexVal a, hexVal b, hexVal c, hexVal d with
        | some ha, some hb, some hc, some hd =>
          (parseStringBody rest').map
            (fun p => (Char.ofNat (((ha * 16 + hb) * 16 + hc) * 16 + hd) :: p.1, p.2))
        | _, _, _, _ => none
      | _ => none
    | _ => none
  | c :: rest =>
    if c.toNat < 32 then none
    else (parseStringBody rest).map (fun p => (c :: p.1, p.2))

/-- Digit test for JSON numbers. -/
def isDigitCh (c : Char) : Bool := '0' ≤ c && c ≤ '9'

/-- Numeric value of a digit run. -/
def digitsVal (l : List Char) : Nat := l.foldl (fun acc c => acc * 10 + (c.toNat - 48)) 0

/-- Parse the integer part of a JSON number (`0` or a nonzero digit run).
Returns the value, digit count consumed, and remainder. -/
def parseIntPart : List Char → Option (Nat × List Char)
  | '0' :: rest => some (0, rest)
  | l =>
    let ds := l.takeWhile isDigitCh
    if ds.isEmpty then none else some (digitsVal ds, l.dropWhile isDigitCh)

/-- Parse a JSON number (grammar `-?(0|[1-9][0-9]*)(\.[0-9]+)?([eE][+-]?[0-9]+)?`). -/
def parseNumber (l : List Char) : Option (Json × List Char) :=
  let (neg, l₁) := match l with
    | '-' :: r => (true, r)
    | _ => (false, l)
  match parseIntPart l₁ with
  | none => none
  | some (ip, r₁) =>
    let (fracV, fracLen, r₂) := match r₁ with
      | '.' :: r =>
        let ds := r.takeWhile isDigitCh
        if ds.isEmpty then (none, 0, r₁) else (some (digitsVal ds), ds.length, r.dropWhile isDigitCh)
      | _ => (some 0, 0, r₁)
    match fracV with
    | none => none
    | some fv =>
      let expPart : Option (ℤ × List Char) := match r₂ with
        | 'e' :: r => match r with
          | '+' :: r' =>
            let ds := r'.takeWhile isDigitCh
            if ds.isEmpty then none else some ((digitsVal ds : ℤ), r'.dropWhile isDigitCh)
          | '-' :: r' =>
            let ds := r'.takeWhile isDigitCh
            if ds.isEmpty then none else some (-(digitsVal ds : ℤ), r'.dropWhile isDigitCh)
          | _ =>
            let ds := r.takeWhile isDigitCh
            if ds.isEmpty then none else some ((digitsVal ds : ℤ), r.dropWhile isDigitCh)
        | 'E' :: r => match r with
          | '+' :: r' =>
            let ds := r'.takeWhile isDigitCh
            if ds.isEmpty then none else some ((digitsVal ds : ℤ), r'.dropWhile isDigitCh)
          | '-' :: r' =>
            let ds := r'.takeWhile isDigitCh
            if ds.isEmpty then none else some (-(digitsVal ds : ℤ), r'.dropWhile isDigitCh)
          | _ =>
            let ds := r.takeWhile isDigitCh
            if ds.isEmpty then none else some ((digitsVal ds : ℤ), r.dropWhile isDigitCh)
        | _ => some (0, r₂)
      match expPart with
      | none => none
      | some (ex, r₃) =>
        let mag : ℚ := ((ip : ℚ) + (fv : ℚ) / ((10 : ℚ) ^ fracLen)) * (10 : ℚ) ^ ex
        some (Json.num (if neg then -mag else mag), r₃)

mutual

/-- Parse one JSON value, fuelled. -/
def parseVal : Nat → List Char → Option (Json × List Char)
  | 0, _ => none
  | fuel + 1, l =>
    match skipWs l with
    | [] => none
    | c :: rest =>
      if c = 'n' then
        if "ull".data.isPrefixOf rest then some (Json.null, rest.drop 3) else none
      else if c = 't' then
        if "rue".data.isPrefixOf rest then some (Json.bool true, rest.drop 3) else none
      else if c = 'f' then
        if "alse".data.isPrefixOf rest then some (Json.bool false, rest.drop 4) else none
      else if c = '\"' then
        (parseStringBody rest).map (fun p => (Json.str p.1, p.2))
      else if c = '[' then
        match skipWs rest with
        | ']' :: r => some (Json.arr [], r)
        | _ =>
          match parseVal fuel rest with
          | some (v, r) => parseArrTail fuel [v] r
          | none => none
      else if c = '\x7b' then
        match skipWs rest with
        | '\x7d' :: r => some (Json.obj [], r)
        | _ =>
          match parseMember fuel rest with
          | some (m, r) => parseObjTail fuel [m] r
          | none => none
      else parseNumber (c :: rest)

/-- Parse the continuation of a JSON array after at least one element. -/
def parseArrTail : Nat → List Json → List Char → Option (Json × List Char)
  | 0, _, _ => none
  | fuel + 1, acc, l =>
    match skipWs l with
    | ',' :: r =>
      match parseVal fuel r with
      | some (v, r') => parseArrTail fuel (acc ++ [v]) r'
      | none => none
    | ']' :: r => some (Json.arr acc, r)
    | _ => none

/-- Parse one `"key": value` object member. -/
def parseMember : Nat → List Char → Option ((List Char × Json) × List Char)
  | 0, _ => none
  | fuel + 1, l =>
    match skipWs l with
    | '\"' :: r =>
      match parseStringBody r with
      | some (k, r') =>
        match skipWs r' with
        | ':' :: r'' => (parseVal fuel r'').map (fun p => ((k, p.1), p.2))
        | _ => none
      | none => none
    | _ => none

/-- Parse the continuation of a JSON object after at least one member. -/
def parseObjTail : Nat → List (List Char × Json) → List Char → Option (Json × List Char)
  | 0, _, _ => none
  | fuel + 1, acc, l =>
    match skipWs l with
    | ',' :: r =>
      match parseMember fuel r with
      | some (m, r') => parseObjTail fuel (acc ++ [m]) r'
      | none => none
    | '\x7d' :: r => some (Json.obj acc, r)
    | _ => none

end

/-- Model of Python `json.loads`: parse one value and require only
whitespace to remain. -/
def jsonLoads (l : List Char) : Option Json :=
  match parseVal (l.length + 1) l with
  | some (v, rest) => if (skipWs rest).isEmpty then some v else none
  | none => none

/-! ### The defensive response-cleaning pipeline

Embedding of the string surgery in
`VideoExplainerGenerator.analyze_text_for_video`
(`video_explainer_generator.py`, lines 126-188), applied to the already
received planner response text.
-/

/-- The characters `'\x7b\x7d[]\":,'` the stray-line filter looks for
(`any(char in stripped for char in ...)` in the source). -/
def jsonPunct : List Char := ['\x7b', '\x7d', '[', ']', '\"', ':', ',']

/-- Fence stripping: the three sequential `startswith("\x60\x60\x60json")`,
`startswith("\x60\x60\x60")`, `endswith("\x60\x60\x60")` slices. -/
def stripFences (l : List Char) : List Char :=
  let r1 := if "```json".data.isPrefixOf l then l.drop 7 else l
  let r2 := if "```".data.isPrefixOf r1 then r1.drop 3 else r1
  if "```".data.isSuffixOf r2 then r2.take (r2.length - 3) else r2

/-- Bracket location: `result[start_bracket:end_bracket + 1]` when
`find('[')` and `rfind(']')` both succeed with `end > start`. -/
def bracketSlice (l : List Char) : List Char :=
  match pyFind '[' l, pyRfind ']' l with
  | some s, some e => if s < e then (l.drop s).take (e + 1 - s) else l
  | some _, none => l
  | none, some _ => l
  | none, none => l

/-- The per-line stray-text test: a nonempty stripped line with none of the
JSON punctuation characters, shorter than 20 characters, that is alphabetic
once inner spaces are removed (`stripped.replace(' ', '').isalpha()`). -/
def isStrayLine (line : List Char) : Bool :=
  let stripped := pyStrip line
  let collapsed := stripped.filter (fun c => !(c = ' '))
  !stripped.isEmpty &&
    !(jsonPunct.any (fun c => stripped.contains c)) &&
    decide (stripped.length < 20) &&
    (!collapsed.isEmpty && collapsed.all Char.isAlpha)

/-- Split into lines, drop stray lines, and rejoin (`'\n'.join(clean_lines)`). -/
def removeStrayLines (l : List Char) : List Char :=
  joinNL ((splitNL l).filter (fun line => !isStrayLine line))

/-- The whole cleaning chain applied before the first `json.loads` attempt:
strip, fence stripping, strip again, bracket slice, stray-line removal. -/
def cleanResponse (raw : List Char) : List Char :=
  removeStrayLines (bracketSlice (pyStrip (stripFences (pyStrip raw))))

/-- Fuelled scanner for `re.sub(r',\s*C', 'C', s)` with `C` a closing
delimiter: a comma followed by whitespace and `close` collapses to `close`,
scanning resumes after each match as `re.sub` does. -/
def subCommaClose (close : Char) : Nat → List Char → List Char
  | 0, l => l
  | _ + 1, [] => []
  | fuel + 1, c :: rest =>
    if c = ',' then
      let ws := rest.takeWhile isPySpace
      let rest' := rest.dropWhile isPySpace
      match rest' with
      | d :: tail =>
        if d = close then close :: subCommaClose close fuel tail
        else c :: (ws ++ subCommaClose close fuel rest')
      | [] => c :: ws
    else c :: subCommaClose close fuel rest

/-- Fuelled scanner for `re.sub(r'\x7d\s*\x7b', '\x7d,\x7b', s)`: a closing
brace followed by whitespace and an opening brace gains a separating comma. -/
def subBraceBrace : Nat → List Char → List Char
  | 0, l => l
  | _ + 1, [] => []
  | fuel + 1, c :: rest =>
    if c = '\x7d' then
      let ws := rest.takeWhile isPySpace
      let rest' := rest.dropWhile isPySpace
      match rest' with
      | d :: tail =>
        if d = '\x7b' then '\x7d' :: ',' :: '\x7b' :: subBraceBrace fuel tail
        else c :: (ws ++ subBraceBrace fuel rest')
      | [] => c :: ws
    else c :: subBraceBrace fuel rest

/-- The three regex repairs applied after a failed parse, in source order:
trailing commas before `\x7d`, trailing commas before `]`, then missing
commas between adjacent objects. -/
def pyFixJson (l : List Char) : List Char :=
  let f1 := subCommaClose '\x7d' l.length l
  let f2 := subCommaClose ']' f1.length f1
  subBraceBrace f2.length f2

/-- The parsing part of `analyze_text_for_video`: clean the raw response,
try `json.loads`, and on failure retry once after the regex repairs;
`none` models the method returning `None`. -/
def analyze_parse (raw : List Char) : Option Json :=
  let r := cleanResponse raw
  match jsonLoads r with
  | some v => some v
  | none => jsonLoads (pyFixJson r)

/-! ### Segment-count selection (`analyze_text_for_video`, lines 46-48) -/

/-- The auto-calculated segment count
`max(3, min(10, target_duration // 8))`; Python `//` is floor division. -/
def auto_segments_count (target_duration : ℤ) : ℤ :=
  max 3 (min 10 (Int.fdiv target_duration 8))

/-- The segment count actually requested from the planner: the caller's
value if supplied, otherwise the auto-calculated one. -/
def requested_segments_count (target_duration : ℤ) : Option ℤ → ℤ
  | some n => n
  | none => auto_segments_count target_duration

/-! ### Plan creation (`VideoExplainerGenerator.create_video_script`)

A raw planner segment is a parsed JSON object; of its fields only
`duration_seconds` enters the timing computation, so the other textual
fields (title, narration, key points, prompts) are not modelled.
`generate_enhanced_prompts` copies every segment and rewrites only its
`image_prompt`, so on the modelled fields it is the identity and the code
path through it is reflected directly in `create_video_script`.
-/

/-- A raw planner segment, reduced to the field the timing computation
reads; `none` models a missing `duration_seconds` key. -/
structure RawSegment where
  duration_seconds : Option ℤ
deriving DecidableEq

/-- The hint duration `segment.get('duration_seconds', 10)`. -/
def hintDuration (seg : RawSegment) : ℤ := seg.duration_seconds.getD 10

/-- Sum of the hint durations of a list of raw segments; this is the
`sum(seg.get('duration_seconds', 10) for seg in ...)` expression. -/
def sumHints (l : List RawSegment) : ℤ := (l.map hintDuration).sum

/-- Python `f"{n:02d}"`: two-digit zero padding (a sign is kept as Python does). -/
def pad2 (n : ℤ) : String :=
  if 0 ≤ n ∧ n < 10 then "0" ++ toString n else toString n

/-- One record of the persisted `video_script.json` segment list. -/
structure ScriptSeg where
  segment_number : ℤ
  duration_seconds : ℤ
  start_time : ℤ
  end_time : ℤ
  background_image : String
deriving DecidableEq

/-- The `video_metadata` object of the script. -/
structure VideoMetadata where
  total_segments : Nat
  estimated_duration : ℤ
deriving DecidableEq

/-- The persisted Segment Plan (`video_script.json`). -/
structure Script where
  video_metadata : VideoMetadata
  segments : List ScriptSeg
deriving DecidableEq

/-- The segment record built for 0-based position `k` of the enhanced list:
`segment_number` is `k+1`, `timing.start_time` is
`sum(... for seg in enhanced_segments[:i-1])` with `i = k+1`, and
`timing.end_time` is the sum over `enhanced_segments[:i]`. -/
def mkScriptSeg (raw : List RawSegment) (k : Nat) (seg : RawSegment) : ScriptSeg :=
  { segment_number := (k : ℤ) + 1
    duration_seconds := hintDuration seg
    start_time := sumHints (raw.take k)
    end_time := sumHints (raw.take (k + 1))
    background_image := "segment_" ++ pad2 ((k : ℤ) + 1) ++ "_background.png" }

/-- The `for i, segment in enumerate(enhanced_segments, 1)` loop. -/
def scriptSegsFrom (raw : List RawSegment) : Nat → List RawSegment → List ScriptSeg
  | _, [] => []
  | k, seg :: rest => mkScriptSeg raw k seg :: scriptSegsFrom raw (k + 1) rest

/-- Model of `VideoExplainerGenerator.create_video_script`: metadata plus the
per-segment records with derived timing. -/
def create_video_script (raw : List RawSegment) : Script :=
  { video_metadata :=
      { total_segments := raw.length
        estimated_duration := sumHints raw }
    segments := scriptSegsFrom raw 0 raw }

/-! ### Job-root allocation (`create_explainer_video.main`, `main.generate_video`)

Both entry points compute `job_id = str(int(time.time()))` and
`job_root = generated_videos/job_<job_id>`.  Wall-clock time is modelled
as a nonnegative rational number of seconds; Python `int()` truncates
toward zero, which on nonnegative times is the floor.
-/

/-- Python `int()` on a float/rational: truncation toward zero. -/
def pyInt (q : ℚ) : ℤ := if 0 ≤ q then ⌊q⌋ else -⌊-q⌋

/-- The id `job_id = str(int(time.time()))` at wall-clock time `t`. -/
def jobId (t : ℚ) : String := toString (pyInt t)

/-- The root `job_output_dir = Path("generated_videos") / f"job_{job_id}"`. -/
def jobRoot (t : ℚ) : String := "generated_videos/job_" ++ jobId t

/-! ### The media compiler (`video_compiler.py`)

The compiler's effects run through ffmpeg/ffprobe subprocesses and the
filesystem.  Following the specification's capability-interface reading
of the external encoder, those are an explicit environment: `probe` is
the ffprobe duration query (`none` for a non-zero exit or an exception),
`encode_ok` records whether the per-segment ffmpeg invocation succeeds
and leaves a non-empty output file, and `concat_ok` the same for the
final concatenation.  A successful per-segment encode yields a clip
whose play length is the duration passed with `-t` (spec §4.3), which is
what `Clip.duration` records.
-/

/-- A compiled per-segment clip: its segment number, its play length in
seconds, and the path it was written to. -/
structure Clip where
  segment_number : ℤ
  duration : ℚ
  path : String
deriving DecidableEq

/-- The audio path `video_segments_dir / "audio" / f"segment_{n:02d}_audio.mp3"`
used by `compile_all_segments`, relative to the job workspace. -/
def audioPath (n : ℤ) : String := "audio/segment_" ++ pad2 n ++ "_audio.mp3"

/-- The clip output path `output_dir / f"segment_{n:02d}_video.mp4"`. -/
def outPath (n : ℤ) : String := "segment_" ++ pad2 n ++ "_video.mp4"

/-- The compiler's external environment. -/
structure CompilerEnv where
  ffmpeg_ok : Bool
  script : Option (List ScriptSeg)
  image_exists : String → Bool
  audio_exists : String → Bool
  probe : String → Option ℚ
  encode_ok : ℤ → Bool
  concat_ok : Bool

/-- Model of `VideoCompiler.get_segment_duration`: the probed duration on success,
the fixed `10.0` second default on a failed probe or an exception. -/
def get_segment_duration (env : CompilerEnv) (audio_file : String) : ℚ :=
  match env.probe audio_file with
  | some d => d
  | none => 10

/-- Model of `VideoCompiler.compile_segment`: probe the audio duration, then run the
encoder; a successful run yields the clip written to `output_file`, a
failed one (non-zero exit, timeout, invalid output) yields nothing. -/
def compile_segment (env : CompilerEnv) (segment_num : ℤ)
    (background_image audio_file output_file : String) : Option Clip :=
  let duration := get_segment_duration env audio_file
  if env.encode_ok segment_num then
    some { segment_number := segment_num, duration := duration, path := output_file }
  else none

/-- The per-segment body of the `compile_all_segments` loop: skip the
segment when its background image is absent (`not background_image or not
exists`) or its audio file is absent, otherwise attempt `compile_segment`. -/
def segClip (env : CompilerEnv) (seg : ScriptSeg) : Option Clip :=
  if seg.background_image = "" then none
  else if env.image_exists seg.background_image = false then none
  else if env.audio_exists (audioPath seg.segment_number) = false then none
  else compile_segment env seg.segment_number seg.background_image
    (audioPath seg.segment_number) (outPath seg.segment_number)

/-- Model of `VideoCompiler.compile_all_segments`: empty on a missing ffmpeg, a
missing/unreadable script, or an empty segment list; otherwise the
successfully compiled clips in script order. -/
def compile_all_segments (env : CompilerEnv) : List Clip :=
  if env.ffmpeg_ok = false then []
  else
    match env.script with
    | none => []
    | some segments =>
      if segments.isEmpty then []
      else segments.filterMap (segClip env)

/-- Model of `VideoCompiler.create_video_list_file`: the concat manifest lists the
clip paths in the order of the clip list handed to it. -/
def create_video_list_file (video_files : List Clip) : List String :=
  video_files.map (fun c => c.path)

/-- Model of `VideoCompiler.concatenate_videos`: false on an empty clip list,
otherwise the stream-copy concat run's outcome. -/
def concatenate_videos (env : CompilerEnv) (video_files : List Clip) : Bool :=
  if video_files.isEmpty then false else env.concat_ok

/-- Play length of the concatenated video: the sum of the clip durations. -/
def videoDuration (clips : List Clip) : ℚ := (clips.map (fun c => c.duration)).sum

/-- Model of `VideoCompiler.compile_complete_video`: compile all segments; `None`
when no segment compiled, otherwise concatenate; the result is the final
video as the ordered clip sequence it concatenates. -/
def compile_complete_video (env : CompilerEnv) : Option (List Clip) :=
  let compiled := compile_all_segments env
  if compiled.isEmpty then none
  else if concatenate_videos env compiled then some compiled
  else none

/-- The name `f"explainer_video_{timestamp}.mp4"`. -/
def finalVideoName (timestamp : ℤ) : String :=
  "explainer_video_" ++ toString timestamp ++ ".mp4"

/-! ### Re-running the compiler (claim C9)

`compile_complete_video` reads only the script, images and audio (the
`CompilerEnv`) and writes clip files, the manifest and the final video —
names disjoint from everything it reads.  `CompilerState` separates the
inputs from the files the compiler writes; `run_compile_complete_video`
is one invocation: clip files are rewritten with `ffmpeg -y` (overwrite),
and a new `explainer_video_<timestamp>.mp4` is produced on success.
-/

/-- Filesystem state around the compiler: its inputs and its outputs. -/
structure CompilerState where
  env : CompilerEnv
  clip_files : List Clip
  final_files : List (String × List Clip)

/-- Overwrite semantics of `ffmpeg -y`: freshly written clips shadow any
previously written file of the same path. -/
def overwriteClips (new old : List Clip) : List Clip :=
  new ++ old.filter (fun c => !(new.any (fun d => d.path == c.path)))

/-- One invocation of `compile_complete_video` at wall-clock second
`now`: returns the updated filesystem state and the produced video. -/
def run_compile_complete_video (now : ℤ) (s : CompilerState) :
    CompilerState × Option (List Clip) :=
  let compiled := compile_all_segments s.env
  let video := compile_complete_video s.env
  ({ s with
      clip_files := overwriteClips compiled s.clip_files
      final_files :=
        match video with
        | some v => (finalVideoName now, v) :: s.final_files
        | none => s.final_files },
   video)

/-! ### The stage orchestrator (`ExplainerVideoCreator.create_complete_video_assets`)

Step 1 runs the planner; a `None` plan aborts the whole call with `None`.
Steps 2-5 run the asset runners (their per-segment failures are recorded
in the environment, not raised).  Step 6 runs video compilation only
under `enable_tts and audio_files and not skip_video_compilation`;
otherwise `final_video` is set to `None` without invoking the compiler.
The call then always returns an assets record.
-/

/-- The orchestrator's environment: the parsed planner output (`none` =
planning failed), the TTS switch and outcome, the `--no-video` flag, and
the compiler's environment. -/
structure OrchEnv where
  planner : Option (List RawSegment)
  enable_tts : Bool
  tts_audio : List String
  skip_video_compilation : Bool
  compiler : CompilerEnv

/-- The `audio_files` value after step 5: the TTS runner's output when TTS
is enabled, the empty list otherwise. -/
def audioFiles (env : OrchEnv) : List String :=
  if env.enable_tts then env.tts_audio else []

/-- The step-6 guard `enable_tts and audio_files and not
getattr(self, 'skip_video_compilation', False)`: whether the orchestrator
invokes video compilation at all. -/
def step6Invoked (env : OrchEnv) : Bool :=
  env.enable_tts && !(audioFiles env).isEmpty && !env.skip_video_compilation

/-- The assets record returned by a successful orchestrator call. -/
structure Assets where
  script : Script
  audio_files : List String
  final_video : Option (List Clip)

/-- Model of `ExplainerVideoCreator.create_complete_video_assets`. -/
def create_complete_video_assets (env : OrchEnv) : Option Assets :=
  match env.planner with
  | none => none
  | some rawSegs =>
    some
      { script := create_video_script rawSegs
        audio_files := audioFiles env
        final_video :=
          if step6Invoked env then compile_complete_video env.compiler else none }

/-! ### Derived notions used by the claims -/

/-- The conditions under which the `compile_all_segments` loop produces a
clip for a segment: nonempty and existing background image, existing audio
file, and a successful encoder run. -/
def compilable (env : CompilerEnv) (seg : ScriptSeg) : Prop :=
  seg.background_image ≠ ""
    ∧ env.image_exists seg.background_image = true
    ∧ env.audio_exists (audioPath seg.segment_number) = true
    ∧ env.encode_ok seg.segment_number = true

instance (env : CompilerEnv) (seg : ScriptSeg) : Decidable (compilable env seg) := by
  unfold compilable
  infer_instance

/-- The clip a segment compiles to when it compiles at all. -/
def clipOf (env : CompilerEnv) (seg : ScriptSeg) : Clip :=
  { segment_number := seg.segment_number
    duration := get_segment_duration env (audioPath seg.segment_number)
    path := outPath seg.segment_number }

/-- Whether a segment has both of the assets `compile_all_segments` checks
for: a nonempty, existing background image and an existing audio file. -/
def hasBoth (env : CompilerEnv) (seg : ScriptSeg) : Bool :=
  !(seg.background_image == "")
    && env.image_exists seg.background_image
    && env.audio_exists (audioPath seg.segment_number)

/-- Number of plan segments with both image and audio present. -/
def countBoth (env : CompilerEnv) (segs : List ScriptSeg) : Nat :=
  (segs.filter (hasBoth env)).length

/-! ### Concrete instances used by counterexamples and witnesses -/

/-- One-segment plan whose single segment has both assets. -/
def c1segs : List ScriptSeg :=
  [{ segment_number := 1, duration_seconds := 10, start_time := 0, end_time := 10,
     background_image := "img1.png" }]

/-- Environment where the only segment has both assets but its ffmpeg
encode fails. -/
def c1env : CompilerEnv :=
  { ffmpeg_ok := true
    script := some c1segs
    image_exists := fun s => s == "img1.png"
    audio_exists := fun _ => true
    probe := fun _ => some 7
    encode_ok := fun _ => false
    concat_ok := true }

/-- Two-segment plan for the C1 witness. -/
def c1wsegs : List ScriptSeg :=
  [{ segment_number := 1, duration_seconds := 10, start_time := 0, end_time := 10,
     background_image := "img1.png" },
   { segment_number := 2, duration_seconds := 8, start_time := 10, end_time := 18,
     background_image := "" }]

/-- Environment for the C1 witness: segment 1 compiles (probed duration
`7/2`), segment 2 has no background image. -/
def c1wenv : CompilerEnv :=
  { ffmpeg_ok := true
    script := some c1wsegs
    image_exists := fun s => s == "img1.png"
    audio_exists := fun _ => true
    probe := fun _ => some (7 / 2)
    encode_ok := fun _ => true
    concat_ok := true }

/-- Three-segment plan for the C3 witness, segment numbers ascending. -/
def c3segs : List ScriptSeg :=
  [{ segment_number := 1, duration_seconds := 10, start_time := 0, end_time := 10,
     background_image := "b1.png" },
   { segment_number := 2, duration_seconds := 9, start_time := 10, end_time := 19,
     background_image := "b2.png" },
   { segment_number := 3, duration_seconds := 8, start_time := 19, end_time := 27,
     background_image := "b3.png" }]

/-- Environment for the C3 witness: segment 2's image file is missing. -/
def c3env : CompilerEnv :=
  { ffmpeg_ok := true
    script := some c3segs
    image_exists := fun s => s == "b1.png" || s == "b3.png"
    audio_exists := fun _ => true
    probe := fun _ => some 5
    encode_ok := fun _ => true
    concat_ok := true }

/-- Three-segment plan for the C4 witness. -/
def c4segs : List ScriptSeg :=
  [{ segment_number := 1, duration_seconds := 10, start_time := 0, end_time := 10,
     background_image := "i1.png" },
   { segment_number := 2, duration_seconds := 9, start_time := 10, end_time := 19,
     background_image := "i2.png" },
   { segment_number := 3, duration_seconds := 8, start_time := 19, end_time := 27,
     background_image := "i3.png" }]

/-- Environment for the C4 witness: segment 2's image generation failed
(its file does not exist); segments 1 and 3 are fully compilable. -/
def c4env : CompilerEnv :=
  { ffmpeg_ok := true
    script := some c4segs
    image_exists := fun s => s == "i1.png" || s == "i3.png"
    audio_exists := fun _ => true
    probe := fun _ => some 6
    encode_ok := fun _ => true
    concat_ok := true }

/-- An inert compiler environment (everything absent or failing). -/
def c0env : CompilerEnv :=
  { ffmpeg_ok := false
    script := none
    image_exists := fun _ => false
    audio_exists := fun _ => false
    probe := fun _ => none
    encode_ok := fun _ => false
    concat_ok := false }

/-- Orchestrator environment for C5: planning succeeded, TTS is enabled,
but the audio runner produced zero files and compilation is not disabled. -/
def c5env : OrchEnv :=
  { planner := some [{ duration_seconds := some 10 }]
    enable_tts := true
    tts_audio := []
    skip_video_compilation := false
    compiler := c0env }

/-- Environment for the C8 witness: the probe fails, the encode succeeds. -/
def c8env : CompilerEnv :=
  { ffmpeg_ok := true
    script := none
    image_exists := fun _ => true
    audio_exists := fun _ => true
    probe := fun _ => none
    encode_ok := fun _ => true
    concat_ok := true }

/-- Raw planner segments whose middle duration hint is negative. -/
def c7raw : List RawSegment :=
  [{ duration_seconds := some 10 }, { duration_seconds := some (-5) },
   { duration_seconds := some 3 }]

/-- Raw planner segments with the spec's example duration hints. -/
def c7wraw : List RawSegment :=
  [{ duration_seconds := some 10 }, { duration_seconds := some 8 },
   { duration_seconds := some 12 }]

/-- The C6 counterexample body: the perfectly valid JSON array
`[\x7b"a":\ntrue\n\x7d]`, whose middle line is the bare alphabetic token
`true`. -/
def c6badBody : List Char :=
  '[' :: '\x7b' :: "\"a\":\ntrue\n".data ++ ['\x7d', ']']

/-- The C6 witness body: a two-object array with the stray one-word line
`Tapi` inserted between its elements. -/
def c6dirtyBody : List Char :=
  '[' :: '\x7b' :: "\"a\": \"x\"".data ++ '\x7d' :: ',' :: '\n' :: "Tapi\n".data
    ++ '\x7b' :: "\"b\": \"y\"".data ++ ['\x7d', ']']

/-- Trailing prose for the C6 witness. -/
def c6prose : List Char := " Hope this helps.".data

/-- The structured list both the clean parse and the pipeline should
produce for the C6 witness. -/
def c6expected : Json :=
  Json.arr [Json.obj [("a".data, Json.str "x".data)],
            Json.obj [("b".data, Json.str "y".data)]]

/-! ## Theorems -/

/-! ### Claim C10: auto-calculated segment count -/

/-- C10: when the caller passes no segment count, `analyze_text_for_video`
requests exactly `max(3, min(10, target_duration // 8))` segments, a value
that lies in `3..10` for every integer target duration. -/
theorem C10_segments_count_clamped :
    ∀ t : ℤ, requested_segments_count t none = max 3 (min 10 (Int.fdiv t 8))
      ∧ 3 ≤ requested_segments_count t none
      ∧ requested_segments_count t none ≤ 10 := by
  intro t
  refine ⟨rfl, le_max_left _ _, ?_⟩
  exact max_le (by norm_num) (min_le_left _ _)

/-! ### Claim C8: probe failure falls back to the 10-second default -/

/-- C8: when probing the audio duration fails, `get_segment_duration`
returns the fixed default `10.0` and `compile_segment` proceeds, producing
(on a successful encode) a clip of exactly that default duration. -/
theorem C8_probe_default (env : CompilerEnv) (n : ℤ)
    (img aud out : String) (hprobe : env.probe aud = none) :
    get_segment_duration env aud = 10
      ∧ (env.encode_ok n = true →
          compile_segment env n img aud out
            = some { segment_number := n, duration := 10, path := out }) := by
  have hd : get_segment_duration env aud = 10 := by
    unfold get_segment_duration
    rw [hprobe]
  refine ⟨hd, fun henc => ?_⟩
  unfold compile_segment
  rw [hd, henc]
  simp

/-- Witness for C8 at a concrete failing-probe environment. -/
theorem C8_probe_default_witness :
    get_segment_duration c8env "a.mp3" = 10
      ∧ compile_segment c8env 1 "i.png" "a.mp3" "o.mp4"
          = some { segment_number := 1, duration := 10, path := "o.mp4" } :=
  ⟨(C8_probe_default c8env 1 "i.png" "a.mp3" "o.mp4" rfl).1,
   (C8_probe_default c8env 1 "i.png" "a.mp3" "o.mp4" rfl).2 rfl⟩

/-! ### Claim C2: job roots collide within one wall-clock second -/

/-- C2 (code bug): `job_id = str(int(time.time()))` uses the timestamp
alone, so two job creations at distinct instants of the same wall-clock
second — here `t = 1700000000` and `t = 1700000000.5` — resolve to the
same `job_root`, contradicting the required collision-freedom. -/
theorem C2_jobroot_collision :
    jobRoot 1700000000 = jobRoot (1700000000 + 1 / 2)
      ∧ (1700000000 : ℚ) ≠ 1700000000 + 1 / 2
      ∧ jobRoot 1700000000 = "generated_videos/job_1700000000" := by
  have h1 : pyInt 1700000000 = 1700000000 := by
    rw [pyInt, if_pos (by norm_num)]
    rw [Int.floor_eq_iff]
    norm_num
  have h2 : pyInt (1700000000 + 1 / 2) = 1700000000 := by
    rw [pyInt, if_pos (by norm_num)]
    rw [Int.floor_eq_iff]
    norm_num
  refine ⟨?_, by norm_num, ?_⟩
  · unfold jobRoot jobId
    rw [h1, h2]
  · unfold jobRoot jobId
    rw [h1]
    rfl

/-! ### Claim C5: the orchestrator skips (not no-ops) compilation -/

/-- C5 (counterexample): an orchestrator run in which planning succeeded,
TTS is enabled, compilation is not disabled, and all runners returned with
zero audio files — yet the step-6 guard is false, i.e. the orchestrator
never invokes the compiler, refuting "the transition happens
unconditionally … compilation is a no-op rather than being skipped". -/
theorem C5_counterexample :
    c5env.planner.isSome = true
      ∧ c5env.enable_tts = true
      ∧ c5env.skip_video_compilation = false
      ∧ audioFiles c5env = []
      ∧ step6Invoked c5env = false
      ∧ (create_complete_video_assets c5env).isSome = true :=
  ⟨rfl, rfl, rfl, rfl, rfl, rfl⟩

/-- C5 (amended): once planning succeeds the orchestrator always returns
an assets record, but it invokes compilation only when TTS is enabled, at
least one audio file was produced, and compilation was not disabled; in
every other case — including zero produced assets — compilation is
skipped by the guard and `final_video` is `None`. -/
theorem C5_compile_guard (env : OrchEnv) (rawSegs : List RawSegment)
    (h : env.planner = some rawSegs) :
    ∃ a, create_complete_video_assets env = some a
      ∧ a.script = create_video_script rawSegs
      ∧ a.audio_files = audioFiles env
      ∧ (step6Invoked env = true → a.final_video = compile_complete_video env.compiler)
      ∧ (step6Invoked env = false → a.final_video = none)
      ∧ (audioFiles env = [] → step6Invoked env = false)
      ∧ (env.enable_tts = false → step6Invoked env = false) := by
  unfold create_complete_video_assets
  rw [h]
  refine ⟨_, rfl, rfl, rfl, ?_, ?_, ?_, ?_⟩
  · intro h6
    simp [h6]
  · intro h6
    simp [h6]
  · intro ha
    simp [step6Invoked, ha]
  · intro ht
    simp [step6Invoked, ht]

/-- Witness for C5 (amended) at the concrete zero-audio environment. -/
theorem C5_compile_guard_witness :
    ∃ a, create_complete_video_assets c5env = some a
      ∧ a.script = create_video_script [{ duration_seconds := some 10 }]
      ∧ a.audio_files = audioFiles c5env
      ∧ (step6Invoked c5env = true → a.final_video = compile_complete_video c5env.compiler)
      ∧ (step6Invoked c5env = false → a.final_video = none)
      ∧ (audioFiles c5env = [] → step6Invoked c5env = false)
      ∧ (c5env.enable_tts = false → step6Invoked c5env = false) :=
  C5_compile_guard c5env [{ duration_seconds := some 10 }] rfl

/-! ### Claim C9: re-running the compiler on unchanged inputs -/

/-- Rewriting the same clips on top of an already rewritten clip set
changes nothing: `ffmpeg -y` overwriting is idempotent. -/
theorem overwriteClips_idem (new old : List Clip) :
    overwriteClips new (overwriteClips new old) = overwriteClips new old := by
  unfold overwriteClips
  rw [List.filter_append]
  have h1 : new.filter (fun c => !(new.any (fun d => d.path == c.path))) = [] := by
    rw [List.filter_eq_nil_iff]
    intro c hc
    have hany : new.any (fun d => d.path == c.path) = true :=
      List.any_eq_true.mpr ⟨c, hc, by simp⟩
    simp [hany]
  rw [h1, List.nil_append]
  congr 1
  rw [List.filter_filter]
  apply List.filter_congr
  intro c _
  rw [Bool.and_self]

/-- C9: re-running `compile_complete_video` with unchanged inputs is
idempotent — the second run overwrites the per-segment clips to exactly
the same files and produces a video equal to the first run's (in
particular of the same duration and segment count). -/
theorem C9_recompile_idempotent (s : CompilerState) (t₁ t₂ : ℤ) :
    (run_compile_complete_video t₂ (run_compile_complete_video t₁ s).1).2
        = (run_compile_complete_video t₁ s).2
      ∧ (run_compile_complete_video t₂ (run_compile_complete_video t₁ s).1).1.clip_files
        = (run_compile_complete_video t₁ s).1.clip_files
      ∧ ((run_compile_complete_video t₂ (run_compile_complete_video t₁ s).1).2).map videoDuration
        = ((run_compile_complete_video t₁ s).2).map videoDuration
      ∧ ((run_compile_complete_video t₂ (run_compile_complete_video t₁ s).1).2).map List.length
        = ((run_compile_complete_video t₁ s).2).map List.length := by
  have h2 : (run_compile_complete_video t₂ (run_compile_complete_video t₁ s).1).2
      = compile_complete_video s.env := rfl
  have h1 : (run_compile_complete_video t₁ s).2 = compile_complete_video s.env := rfl
  refine ⟨by rw [h2, h1], ?_, by rw [h2, h1], by rw [h2, h1]⟩
  show overwriteClips (compile_all_segments s.env)
        (overwriteClips (compile_all_segments s.env) s.clip_files)
      = overwriteClips (compile_all_segments s.env) s.clip_files
  exact overwriteClips_idem _ _

/-! ### Compiler structure lemmas (used by C1, C3, C4) -/

/-- Characterisation of the per-segment loop body: it yields a clip
exactly when the segment is compilable, and then exactly the expected
clip. -/
theorem segClip_eq_some_iff (env : CompilerEnv) (seg : ScriptSeg) (c : Clip) :
    segClip env seg = some c ↔ (compilable env seg ∧ c = clipOf env seg) := by
  unfold segClip compile_segment compilable clipOf
  split_ifs with h1 h2 h3 h4
  · simp [h1]
  · simp [h2]
  · simp [h3]
  · constructor
    · intro h
      have hc := Option.some.inj h
      refine ⟨⟨h1, ?_, ?_, h4⟩, hc.symm⟩
      · cases himg : env.image_exists seg.background_image
        · exact absurd himg h2
        · rfl
      · cases haud : env.audio_exists (audioPath seg.segment_number)
        · exact absurd haud h3
        · rfl
    · intro ⟨_, hc⟩
      rw [hc]
  · constructor
    · intro h
      exact absurd h (by simp)
    · intro ⟨⟨_, _, _, henc⟩, _⟩
      exact absurd henc h4

/-- A segment without both assets contributes no clip. -/
theorem segClip_none_of_not_hasBoth (env : CompilerEnv) (seg : ScriptSeg)
    (h : hasBoth env seg = false) : segClip env seg = none := by
  unfold segClip
  split_ifs with h1 h2 h3
  · rfl
  · rfl
  · rfl
  · exfalso
    have himg : env.image_exists seg.background_image = true := by
      cases hi : env.image_exists seg.background_image
      · exact absurd hi h2
      · rfl
    have haud : env.audio_exists (audioPath seg.segment_number) = true := by
      cases ha : env.audio_exists (audioPath seg.segment_number)
      · exact absurd ha h3
      · rfl
    have : hasBoth env seg = true := by
      unfold hasBoth
      rw [himg, haud, beq_eq_false_iff_ne.mpr h1]
      rfl
    rw [this] at h
    exact Bool.noConfusion h

/-- With ffmpeg present and a readable script, `compile_all_segments` is
exactly the filter-map of the per-segment loop body over the plan. -/
theorem compile_all_eq_filterMap (env : CompilerEnv) (segs : List ScriptSeg)
    (hff : env.ffmpeg_ok = true) (hs : env.script = some segs) :
    compile_all_segments env = segs.filterMap (segClip env) := by
  unfold compile_all_segments
  rw [hff, hs]
  simp only [Bool.true_eq_false, if_false]
  cases h : segs.isEmpty
  · rfl
  · rw [List.isEmpty_iff.mp h]
    rfl

/-- With ffmpeg absent, `compile_all_segments` is empty. -/
theorem compile_all_of_no_ffmpeg (env : CompilerEnv) (hff : env.ffmpeg_ok = false) :
    compile_all_segments env = [] := by
  unfold compile_all_segments
  rw [hff]
  rfl

/-- Every produced clip comes from some plan segment via the loop body. -/
theorem mem_compile_all (env : CompilerEnv) (c : Clip)
    (h : c ∈ compile_all_segments env) :
    ∃ segs seg, env.script = some segs ∧ seg ∈ segs ∧ segClip env seg = some c := by
  cases hff : env.ffmpeg_ok
  · rw [compile_all_of_no_ffmpeg env hff] at h
    exact absurd h (List.not_mem_nil c)
  · cases hs : env.script with
    | none =>
      unfold compile_all_segments at h
      rw [hff, hs] at h
      exact absurd h (List.not_mem_nil c)
    | some segs =>
      rw [compile_all_eq_filterMap env segs hff hs] at h
      obtain ⟨seg, hmem, hclip⟩ := List.mem_filterMap.mp h
      exact ⟨segs, seg, rfl, hmem, hclip⟩

/-- Sublist transport through `filterMap` for projections that agree. -/
theorem map_filterMap_sublist {α β γ : Type _} (f : α → Option β) (g : β → γ)
    (gg : α → γ) (H : ∀ a b, f a = some b → g b = gg a) :
    ∀ l : List α, ((l.filterMap f).map g).Sublist (l.map gg) := by
  intro l
  induction l with
  | nil => simp
  | cons a l ih =>
    cases hfa : f a with
    | none =>
      rw [List.filterMap_cons_none hfa, List.map_cons]
      exact ih.cons _
    | some b =>
      rw [List.filterMap_cons_some hfa, List.map_cons, List.map_cons, H a b hfa]
      exact ih.cons₂ _

/-! ### Claim C1: result of `compile_complete_video` -/

/-- C1 (counterexample): in `c1env` the single segment has both a
background image and an audio file (`countBoth = 1`), yet its ffmpeg
encode fails, so `compile_complete_video` returns `None`; hence the
claimed dichotomy — a video of the summed probed durations, or `None`
exactly when zero segments have both assets — fails at this input. -/
theorem C1_counterexample :
    ¬ ((∃ L, compile_complete_video c1env = some L
          ∧ videoDuration L
              = (L.map (fun c => get_segment_duration c1env (audioPath c.segment_number))).sum)
        ∨ (compile_complete_video c1env = none ↔ countBoth c1env c1segs = 0)) := by
  intro h
  rcases h with ⟨L, hL, -⟩ | hiff
  · rw [show compile_complete_video c1env = none from rfl] at hL
    exact Option.noConfusion hL
  · have h0 : countBoth c1env c1segs = 0 := hiff.mp rfl
    have h1 : countBoth c1env c1segs = 1 := rfl
    exact absurd (h1 ▸ h0) (by decide)

/-- C1 (amended): whenever `compile_complete_video` returns a video, the
video is nonempty and its duration is the sum over its clips of
`get_segment_duration` (the probed duration, or the 10-second default on
probe failure) of each clip's audio file; it returns `None` exactly when
no segment compiled or the final concatenation failed — and zero
segments with both image and audio is one way nothing compiles. -/
theorem C1_compile_result (env : CompilerEnv) (segs : List ScriptSeg)
    (hs : env.script = some segs) (hN : 1 ≤ segs.length) :
    (∀ L, compile_complete_video env = some L →
        L ≠ []
        ∧ (∀ c ∈ L, c.duration = get_segment_duration env (audioPath c.segment_number))
        ∧ videoDuration L
            = (L.map (fun c => get_segment_duration env (audioPath c.segment_number))).sum)
    ∧ (compile_complete_video env = none
        ↔ (compile_all_segments env = [] ∨ env.concat_ok = false))
    ∧ (countBoth env segs = 0 → compile_all_segments env = []) := by
  have hdur : ∀ c ∈ compile_all_segments env,
      c.duration = get_segment_duration env (audioPath c.segment_number) := by
    intro c hc
    obtain ⟨segs', seg, hs', hmem, hclip⟩ := mem_compile_all env c hc
    rw [segClip_eq_some_iff] at hclip
    rw [hclip.2]
    rfl
  refine ⟨?_, ?_, ?_⟩
  · intro L hL
    simp only [compile_complete_video] at hL
    cases hemp : (compile_all_segments env).isEmpty
    · rw [hemp] at hL
      simp only [Bool.false_eq_true, if_false] at hL
      unfold concatenate_videos at hL
      rw [hemp] at hL
      simp only [Bool.false_eq_true, if_false] at hL
      cases hcat : env.concat_ok
      · rw [hcat] at hL
        exact absurd hL (by simp)
      · rw [hcat] at hL
        simp only [if_true] at hL
        have hLeq : L = compile_all_segments env := (Option.some.inj hL).symm
        subst hLeq
        refine ⟨?_, hdur, ?_⟩
        · intro hnil
          rw [hnil] at hemp
          exact Bool.noConfusion hemp
        · unfold videoDuration
          congr 1
          exact List.map_congr_left hdur
    · rw [hemp] at hL
      exact absurd hL (by simp)
  · simp only [compile_complete_video, concatenate_videos]
    by_cases hnil : compile_all_segments env = []
    · simp [hnil]
    · have hemp : (compile_all_segments env).isEmpty = false := by
        cases h : (compile_all_segments env).isEmpty
        · rfl
        · exact absurd (List.isEmpty_iff.mp h) hnil
      obtain hcat | hcat := Bool.eq_false_or_eq_true env.concat_ok
      · simp [hemp, hcat, hnil]
      · simp [hemp, hcat, hnil]
  · intro h0
    have hnone : ∀ seg ∈ segs, hasBoth env seg = false := by
      intro seg hmem
      have hlen : (segs.filter (hasBoth env)) = [] := by
        have := h0
        unfold countBoth at this
        exact List.length_eq_zero.mp this
      have := List.filter_eq_nil_iff.mp hlen seg hmem
      cases hb : hasBoth env seg
      · rfl
      · exact absurd hb this
    cases hff : env.ffmpeg_ok
    · exact compile_all_of_no_ffmpeg env hff
    · rw [compile_all_eq_filterMap env segs hff hs]
      rw [List.filterMap_eq_nil_iff]
      intro seg hmem
      exact segClip_none_of_not_hasBoth env seg (hnone seg hmem)

/-- Witness for C1 (amended): in `c1wenv` segment 1 compiles with probed
duration `7/2` and segment 2 is skipped; the produced video satisfies all
three conclusions. -/
theorem C1_compile_result_witness :
    compile_all_segments c1wenv ≠ []
      ∧ (∀ c ∈ compile_all_segments c1wenv,
          c.duration = get_segment_duration c1wenv (audioPath c.segment_number))
      ∧ videoDuration (compile_all_segments c1wenv)
          = ((compile_all_segments c1wenv).map
              (fun c => get_segment_duration c1wenv (audioPath c.segment_number))).sum :=
  (C1_compile_result c1wenv c1wsegs rfl (by decide)).1 (compile_all_segments c1wenv) rfl

/-! ### Claim C3: manifest and final order is ascending `segment_number` -/

/-- C3: under a plan whose segment numbers are strictly ascending, the
compiled clip sequence's segment numbers form a sublist of the plan's
(skipped and failed segments simply omitted), remain strictly ascending,
and the concat manifest lists exactly those clips' paths in that order;
the output is a deterministic function of the plan and the recorded
per-segment outcomes, never of any completion order. -/
theorem C3_manifest_order (env : CompilerEnv) (segs : List ScriptSeg)
    (hs : env.script = some segs)
    (hsorted : (segs.map ScriptSeg.segment_number).Sorted (· < ·)) :
    ((compile_all_segments env).map Clip.segment_number).Sublist
        (segs.map ScriptSeg.segment_number)
      ∧ ((compile_all_segments env).map Clip.segment_number).Sorted (· < ·)
      ∧ create_video_list_file (compile_all_segments env)
          = (compile_all_segments env).map (fun c => c.path) := by
  have hsub : ((compile_all_segments env).map Clip.segment_number).Sublist
      (segs.map ScriptSeg.segment_number) := by
    cases hff : env.ffmpeg_ok
    · rw [compile_all_of_no_ffmpeg env hff]
      simp
    · rw [compile_all_eq_filterMap env segs hff hs]
      refine map_filterMap_sublist (segClip env) Clip.segment_number
        ScriptSeg.segment_number ?_ segs
      intro a b hab
      rw [segClip_eq_some_iff] at hab
      rw [hab.2]
      rfl
  exact ⟨hsub, List.Pairwise.sublist hsub hsorted, rfl⟩

/-- Witness for C3 at a concrete environment in which segment 2's image
is missing: the surviving clip numbers are still ascending. -/
theorem C3_manifest_order_witness :
    ((compile_all_segments c3env).map Clip.segment_number).Sublist
        (c3segs.map ScriptSeg.segment_number)
      ∧ ((compile_all_segments c3env).map Clip.segment_number).Sorted (· < ·)
      ∧ create_video_list_file (compile_all_segments c3env)
          = (compile_all_segments c3env).map (fun c => c.path) :=
  C3_manifest_order c3env c3segs rfl (by decide)

/-! ### Claim C4: partial failure does not spread -/

/-- C4: with ffmpeg present, a readable plan and distinct segment numbers,
a segment's clip appears in the compiled output exactly when that segment
itself is compilable — so one segment's missing asset or failed encode
never suppresses a sibling's clip; whenever anything compiled and the
concatenation succeeds the final video is exactly the compiled clip list;
and the orchestrator returns an assets record (the job is not `Failed`)
whenever planning succeeded, regardless of compile outcomes. -/
theorem C4_partial_failure (env : CompilerEnv) (segs : List ScriptSeg)
    (hff : env.ffmpeg_ok = true) (hs : env.script = some segs)
    (hnodup : (segs.map ScriptSeg.segment_number).Nodup) :
    (∀ seg ∈ segs, (clipOf env seg ∈ compile_all_segments env ↔ compilable env seg))
      ∧ (env.concat_ok = true → compile_all_segments env ≠ [] →
          compile_complete_video env = some (compile_all_segments env))
      ∧ (∀ oenv : OrchEnv, (oenv.planner).isSome = true →
          (create_complete_video_assets oenv).isSome = true) := by
  refine ⟨?_, ?_, ?_⟩
  · intro seg hmem
    rw [compile_all_eq_filterMap env segs hff hs]
    constructor
    · intro hin
      obtain ⟨seg', hmem', hclip⟩ := List.mem_filterMap.mp hin
      rw [segClip_eq_some_iff] at hclip
      obtain ⟨hcomp', heq⟩ := hclip
      have hnum : seg'.segment_number = seg.segment_number :=
        (congrArg Clip.segment_number heq).symm
      have hseg : seg' = seg :=
        List.inj_on_of_nodup_map hnodup hmem' hmem hnum
      rwa [hseg] at hcomp'
    · intro hcomp
      exact List.mem_filterMap.mpr
        ⟨seg, hmem, (segClip_eq_some_iff env seg (clipOf env seg)).mpr ⟨hcomp, rfl⟩⟩
  · intro hcat hne
    have hemp : (compile_all_segments env).isEmpty = false := by
      cases h : (compile_all_segments env).isEmpty
      · rfl
      · exact absurd (List.isEmpty_iff.mp h) hne
    simp only [compile_complete_video, concatenate_videos]
    simp [hemp, hcat]
  · intro oenv hp
    unfold create_complete_video_assets
    cases h : oenv.planner with
    | none =>
      rw [h] at hp
      exact absurd hp (by simp)
    | some rawSegs => rfl

/-- Witness for C4 at `c4env`, where segment 2's image is missing:
segment 1 (fully compilable) still yields its clip. -/
theorem C4_partial_failure_witness :
    clipOf c4env
        { segment_number := 1, duration_seconds := 10, start_time := 0, end_time := 10,
          background_image := "i1.png" }
      ∈ compile_all_segments c4env :=
  ((C4_partial_failure c4env c4segs rfl rfl (by decide)).1
      { segment_number := 1, duration_seconds := 10, start_time := 0, end_time := 10,
        background_image := "i1.png" }
      (by decide)).mpr (by decide)

/-! ### Claim C7: derived timing fields of the plan -/

/-- Elementwise description of the `enumerate` loop of
`create_video_script`. -/
theorem scriptSegsFrom_getElem? (raw : List RawSegment) :
    ∀ (rest : List RawSegment) (k i : Nat),
      (scriptSegsFrom raw k rest)[i]? = (rest[i]?).map (mkScriptSeg raw (k + i)) := by
  intro rest
  induction rest with
  | nil => intro k i; simp [scriptSegsFrom]
  | cons seg rest ih =>
    intro k i
    cases i with
    | zero => simp [scriptSegsFrom]
    | succ i =>
      have h : k + 1 + i = k + (i + 1) := by omega
      simp only [scriptSegsFrom, List.getElem?_cons_succ]
      rw [ih (k + 1) i, h]

/-- The loop preserves the hint durations, in order. -/
theorem scriptSegsFrom_map_duration (raw : List RawSegment) :
    ∀ (rest : List RawSegment) (k : Nat),
      (scriptSegsFrom raw k rest).map ScriptSeg.duration_seconds = rest.map hintDuration := by
  intro rest
  induction rest with
  | nil => intro k; rfl
  | cons seg rest ih =>
    intro k
    simp only [scriptSegsFrom, List.map_cons, ih (k + 1)]
    rfl

/-- Hint sums over longer prefixes dominate, given nonnegative hints. -/
theorem sumHints_take_mono (raw : List RawSegment)
    (h : ∀ s ∈ raw, 0 ≤ hintDuration s) {i j : Nat} (hij : i ≤ j) :
    sumHints (raw.take i) ≤ sumHints (raw.take j) := by
  have hj : j = i + (j - i) := by omega
  rw [hj, List.take_add]
  unfold sumHints
  rw [List.map_append, List.sum_append]
  have hnn : 0 ≤ (((raw.drop i).take (j - i)).map hintDuration).sum := by
    apply List.sum_nonneg
    intro x hx
    obtain ⟨s, hs, rfl⟩ := List.mem_map.mp hx
    exact h s (List.mem_of_mem_drop (List.mem_of_mem_take hs))
  exact le_add_of_nonneg_right hnn

/-- C7 (counterexample): feeding plan creation a planner response whose
middle segment carries the (unvalidated) hint `-5` yields start times
`[0, 10, 5]` — not monotonically non-decreasing, refuting that conjunct
of the claim. -/
theorem C7_counterexample :
    ((create_video_script c7raw).segments.map ScriptSeg.start_time) = [0, 10, 5]
      ∧ ¬ ((create_video_script c7raw).segments.map ScriptSeg.start_time).Sorted (· ≤ ·) := by
  constructor
  · rfl
  · decide

/-- C7 (amended): in every plan built by `create_video_script`, each
segment's `start_time` is the sum of the duration hints of all preceding
segments (equivalently of their `duration_seconds` fields), `end_time`
is `start_time` plus the segment's own hint, and
`video_metadata.estimated_duration` is the sum of all hints; the
`start_time` sequence is monotonically non-decreasing provided every hint
is nonnegative (the code never validates the planner's hints, and a
negative hint breaks monotonicity). -/
theorem C7_plan_timing (raw : List RawSegment) :
    (∀ i seg, (create_video_script raw).segments[i]? = some seg →
        seg.start_time = sumHints (raw.take i)
        ∧ seg.start_time
            = (((create_video_script raw).segments.take i).map ScriptSeg.duration_seconds).sum
        ∧ seg.end_time = seg.start_time + seg.duration_seconds)
    ∧ ((∀ s ∈ raw, 0 ≤ hintDuration s) →
        ∀ (i j : Nat) (si sj : ScriptSeg), i ≤ j →
          (create_video_script raw).segments[i]? = some si →
          (create_video_script raw).segments[j]? = some sj →
          si.start_time ≤ sj.start_time)
    ∧ (create_video_script raw).video_metadata.estimated_duration = sumHints raw := by
  have hget : ∀ i, (create_video_script raw).segments[i]?
      = (raw[i]?).map (mkScriptSeg raw i) := by
    intro i
    have := scriptSegsFrom_getElem? raw raw 0 i
    simpa using this
  refine ⟨?_, ?_, rfl⟩
  · intro i seg hseg
    rw [hget i] at hseg
    cases hraw : raw[i]? with
    | none =>
      rw [hraw] at hseg
      exact absurd hseg (by simp)
    | some rseg =>
      rw [hraw] at hseg
      have hseg' : seg = mkScriptSeg raw i rseg := (Option.some.inj hseg).symm
      subst hseg'
      refine ⟨rfl, ?_, ?_⟩
      · show sumHints (raw.take i)
          = (((create_video_script raw).segments.take i).map ScriptSeg.duration_seconds).sum
        have hmap : (create_video_script raw).segments.map ScriptSeg.duration_seconds
            = raw.map hintDuration := scriptSegsFrom_map_duration raw raw 0
        rw [List.map_take, hmap, ← List.map_take]
        rfl
      · show sumHints (raw.take (i + 1))
          = sumHints (raw.take i) + hintDuration rseg
        rw [List.take_succ, hraw]
        unfold sumHints
        rw [List.map_append, List.sum_append]
        simp
  · intro hnn i j si sj hij hi hj
    rw [hget i] at hi
    rw [hget j] at hj
    cases hri : raw[i]? with
    | none => rw [hri] at hi; exact absurd hi (by simp)
    | some ri =>
      cases hrj : raw[j]? with
      | none => rw [hrj] at hj; exact absurd hj (by simp)
      | some rj =>
        rw [hri] at hi
        rw [hrj] at hj
        have hi' : si = mkScriptSeg raw i ri := (Option.some.inj hi).symm
        have hj' : sj = mkScriptSeg raw j rj := (Option.some.inj hj).symm
        subst hi'
        subst hj'
        exact sumHints_take_mono raw hnn hij

/-- Witness for C7 (amended) with the spec's example hints `[10, 8, 12]`:
the start time of segment 2 precedes that of segment 3. -/
theorem C7_plan_timing_witness :
    (mkScriptSeg c7wraw 1 { duration_seconds := some 8 }).start_time
      ≤ (mkScriptSeg c7wraw 2 { duration_seconds := some 12 }).start_time :=
  (C7_plan_timing c7wraw).2.1 (by decide) 1 2 _ _ (by omega) rfl rfl

/-! ### Claim C6: recovery of planner responses

String lemmas about the cleaning chain, then the recovery theorem.
-/

/-- A list whose first character is not whitespace is `lstrip`-invariant. -/
theorem pyLstrip_eq_self_of_head {l : List Char}
    (h : ∀ c, l.head? = some c → isPySpace c = false) : pyLstrip l = l := by
  cases l with
  | nil => rfl
  | cons c t =>
    unfold pyLstrip
    rw [List.dropWhile_cons, h c rfl]
    simp

/-- A list whose last character is not whitespace is `rstrip`-invariant. -/
theorem pyRstrip_eq_self_of_getLast {l : List Char}
    (h : ∀ c, l.getLast? = some c → isPySpace c = false) : pyRstrip l = l := by
  unfold pyRstrip
  cases hl : l.reverse with
  | nil =>
    have hnil : l = [] := by
      have := congrArg List.reverse hl
      simpa using this
    rw [hnil]
    rfl
  | cons c t =>
    have hc : l.getLast? = some c := by
      rw [← List.head?_reverse, hl]
      rfl
    rw [List.dropWhile_cons, h c hc]
    simp only [Bool.false_eq_true, if_false]
    rw [← hl, List.reverse_reverse]

/-- A list with non-whitespace first and last characters is
`strip`-invariant. -/
theorem pyStrip_eq_self {l : List Char}
    (hhead : ∀ c, l.head? = some c → isPySpace c = false)
    (hlast : ∀ c, l.getLast? = some c → isPySpace c = false) : pyStrip l = l := by
  unfold pyStrip
  rw [pyRstrip_eq_self_of_getLast hlast]
  exact pyLstrip_eq_self_of_head hhead

/-- Dropping a prefix cannot lengthen a list. -/
theorem length_dropWhile_le (p : Char → Bool) (l : List Char) :
    (l.dropWhile p).length ≤ l.length := by
  induction l with
  | nil => simp
  | cons c t ih =>
    rw [List.dropWhile_cons]
    cases hp : p c
    · simp [hp]
    · simp only [if_true]
      exact le_trans ih (by simp)

/-- An `rstrip`-invariant list has a non-whitespace last character. -/
theorem getLast_not_space_of_pyRstrip {p : List Char} (hp : pyRstrip p = p) :
    ∀ d, p.getLast? = some d → isPySpace d = false := by
  intro d hd
  cases hsp : isPySpace d with
  | false => rfl
  | true =>
    exfalso
    have hrev : p.reverse.head? = some d := by rw [List.head?_reverse]; exact hd
    obtain ⟨t, ht⟩ : ∃ t, p.reverse = d :: t := by
      cases hr : p.reverse with
      | nil => rw [hr] at hrev; exact Option.noConfusion hrev
      | cons e t =>
        rw [hr] at hrev
        exact ⟨t, by rw [Option.some.inj hrev]⟩
    have hlen : (pyRstrip p).length < p.length := by
      unfold pyRstrip
      rw [ht, List.dropWhile_cons, hsp]
      simp only [if_true, List.length_reverse]
      have h1 : (t.dropWhile isPySpace).length ≤ t.length := length_dropWhile_le _ _
      have h2 : p.length = t.length + 1 := by
        have := congrArg List.length ht
        simpa using this
      omega
    rw [hp] at hlen
    omega

/-- A suffix of a cons is the whole cons or a suffix of the tail. -/
theorem suffix_of_cons {t : List Char} {a : Char} {l : List Char}
    (h : t <:+ (a :: l)) : t = a :: l ∨ t <:+ l := by
  obtain ⟨pre, hpre⟩ := h
  cases pre with
  | nil => exact Or.inl (by simpa using hpre)
  | cons x xs =>
    right
    refine ⟨xs, ?_⟩
    rw [List.cons_append] at hpre
    exact (List.cons.inj hpre).2

/-- A list is a Boolean prefix of itself followed by anything. -/
theorem isPrefixOf_append_self (a b : List Char) : a.isPrefixOf (a ++ b) = true := by
  rw [List.isPrefixOf_iff_prefix]
  exact ⟨b, rfl⟩

/-- The bracket slice of a well-delimited array body followed by
`]`-free prose is exactly the body. -/
theorem bracketSlice_extract {s p : List Char} (hhead : s.head? = some '[')
    (hlast : s.getLast? = some ']') (hlen : 2 ≤ s.length) (hpr : ']' ∉ p) :
    bracketSlice (s ++ p) = s := by
  obtain ⟨s', hs⟩ : ∃ s', s = '[' :: s' := by
    cases s with
    | nil => exact Option.noConfusion hhead
    | cons c t => exact ⟨t, by rw [Option.some.inj hhead]⟩
  have hfind : pyFind '[' (s ++ p) = some 0 := by
    unfold pyFind
    rw [hs, List.cons_append, List.findIdx?_cons]
    simp
  have hrevs : s.reverse.findIdx? (· == ']') = some 0 := by
    have hrh : s.reverse.head? = some ']' := by rw [List.head?_reverse]; exact hlast
    cases hr : s.reverse with
    | nil => rw [hr] at hrh; exact Option.noConfusion hrh
    | cons c t =>
      rw [hr] at hrh
      rw [List.findIdx?_cons, Option.some.inj hrh]
      simp
  have hrevp : p.reverse.findIdx? (· == ']') = none := by
    rw [List.findIdx?_eq_none_iff]
    intro x hx
    have : x ∈ p := List.mem_reverse.mp hx
    exact beq_eq_false_iff_ne.mpr (fun hxe => hpr (hxe ▸ this))
  have hrfind : pyRfind ']' (s ++ p) = some (s.length - 1) := by
    unfold pyRfind
    rw [List.reverse_append, List.findIdx?_append, hrevp, hrevs]
    simp only [Option.none_or, Option.map_some']
    have h1 : (s ++ p).length = s.length + p.length := List.length_append s p
    have h2 : p.reverse.length = p.length := List.length_reverse p
    rw [h1, h2]
    have hs1 : 1 ≤ s.length := by omega
    congr 1
    omega
  unfold bracketSlice
  rw [hfind, hrfind]
  show (if 0 < s.length - 1 then List.take (s.length - 1 + 1 - 0) (List.drop 0 (s ++ p))
      else s ++ p) = s
  rw [if_pos (by omega)]
  rw [List.drop_zero]
  have h3 : s.length - 1 + 1 - 0 = s.length := by omega
  rw [h3]
  exact List.take_left' rfl

/-- The cleaning chain on a fenced (or unfenced) well-delimited array
body followed by benign trailing prose reduces to stray-line removal on
the body alone. -/
theorem cleanResponse_extract (useFence : Bool) {s p : List Char}
    (hhead : s.head? = some '[')
    (hlast : s.getLast? = some ']')
    (hlen : 2 ≤ s.length)
    (hp : pyRstrip p = p)
    (hpr : ']' ∉ p)
    (hfe : "```".data.isSuffixOf (s ++ p) = false) :
    cleanResponse ((if useFence then "```json\n".data else []) ++ (s ++ p))
      = removeStrayLines s := by
  obtain ⟨s', hs⟩ : ∃ s', s = '[' :: s' := by
    cases s with
    | nil => exact Option.noConfusion hhead
    | cons c t => exact ⟨t, by rw [Option.some.inj hhead]⟩
  have hlastSP : ∀ c, (s ++ p).getLast? = some c → isPySpace c = false := by
    intro c hc
    by_cases hpe : p = []
    · rw [hpe, List.append_nil] at hc
      rw [Option.some.inj (hlast ▸ hc : some ']' = some c).symm] at *
      rw [← Option.some.inj (hc.symm.trans hlast)]
      rfl
    · rw [List.getLast?_append] at hc
      obtain ⟨d, hd⟩ : ∃ d, p.getLast? = some d := by
        cases hpl : p.getLast? with
        | none => exact absurd (List.getLast?_eq_none_iff.mp hpl) hpe
        | some d => exact ⟨d, rfl⟩
      rw [hd] at hc
      have : d = c := Option.some.inj hc
      rw [← this]
      exact getLast_not_space_of_pyRstrip hp d hd
  have hheadSP : ∀ c, (s ++ p).head? = some c → isPySpace c = false := by
    intro c hc
    rw [hs, List.cons_append] at hc
    rw [← Option.some.inj hc]
    rfl
  have hstrip2 : pyStrip (s ++ p) = s ++ p := pyStrip_eq_self hheadSP hlastSP
  have hfe' : ∀ x : List Char, "```".data.isSuffixOf ('\n' :: (s ++ p)) = false := by
    intro x
    cases hb : "```".data.isSuffixOf ('\n' :: (s ++ p)) with
    | false => rfl
    | true =>
      exfalso
      have hsuf := List.isSuffixOf_iff_suffix.mp hb
      rcases suffix_of_cons hsuf with heq | hsuf'
      · exact absurd (List.cons.inj heq).1 (by decide)
      · rw [← List.isSuffixOf_iff_suffix] at hsuf'
        rw [hsuf'] at hfe
        exact Bool.noConfusion hfe
  cases useFence with
  | true =>
    have hdecomp : (if true then "```json\n".data else []) ++ (s ++ p)
        = "```json".data ++ ('\n' :: (s ++ p)) := by
      simp
    rw [hdecomp]
    unfold cleanResponse
    have hspne : s ++ p ≠ [] := by
      rw [hs]
      simp
    have hstrip1 : pyStrip ("```json".data ++ ('\n' :: (s ++ p)))
        = "```json".data ++ ('\n' :: (s ++ p)) := by
      apply pyStrip_eq_self
      · intro c hc
        rw [← Option.some.inj hc]
        rfl
      · intro c hc
        rw [show ("```json".data ++ ('\n' :: (s ++ p)))
            = ("```json".data ++ ['\n']) ++ (s ++ p) by simp] at hc
        rw [List.getLast?_append_of_ne_nil _ hspne] at hc
        exact hlastSP c hc
    rw [hstrip1]
    have hf1 : "```json".data.isPrefixOf ("```json".data ++ ('\n' :: (s ++ p))) = true :=
      isPrefixOf_append_self _ _
    have hdrop : ("```json".data ++ ('\n' :: (s ++ p))).drop 7 = '\n' :: (s ++ p) :=
      List.drop_left' rfl
    have hf2 : "```".data.isPrefixOf ('\n' :: (s ++ p)) = false := rfl
    unfold stripFences
    rw [hf1]
    simp only [if_true]
    rw [hdrop, hf2]
    simp only [Bool.false_eq_true, if_false]
    rw [hfe' []]
    simp only [Bool.false_eq_true, if_false]
    have hstrip3 : pyStrip ('\n' :: (s ++ p)) = s ++ p := by
      unfold pyStrip
      rw [show ('\n' :: (s ++ p)) = ['\n'] ++ (s ++ p) from rfl]
      have hrs : pyRstrip (['\n'] ++ (s ++ p)) = ['\n'] ++ (s ++ p) := by
        apply pyRstrip_eq_self_of_getLast
        intro c hc
        rw [List.getLast?_append_of_ne_nil _ hspne] at hc
        exact hlastSP c hc
      rw [hrs]
      unfold pyLstrip
      rw [List.singleton_append, List.dropWhile_cons]
      rw [show isPySpace '\n' = true from rfl]
      simp only [if_true]
      exact pyLstrip_eq_self_of_head hheadSP
    rw [hstrip3]
    rw [bracketSlice_extract hhead hlast hlen hpr]
  | false =>
    have hdecomp : (if false then "```json\n".data else []) ++ (s ++ p) = s ++ p := by
      simp
    rw [hdecomp]
    unfold cleanResponse
    rw [hstrip2]
    have hf1 : "```json".data.isPrefixOf (s ++ p) = false := by
      rw [hs, List.cons_append]
      rfl
    have hf2 : "```".data.isPrefixOf (s ++ p) = false := by
      rw [hs, List.cons_append]
      rfl
    unfold stripFences
    rw [hf1]
    simp only [Bool.false_eq_true, if_false]
    rw [hf2]
    simp only [Bool.false_eq_true, if_false]
    rw [hfe]
    simp only [Bool.false_eq_true, if_false]
    rw [hstrip2]
    rw [bracketSlice_extract hhead hlast hlen hpr]

/-- C6 (counterexample): `c6badBody` is a perfectly clean JSON array
(its clean parse succeeds), yet with a leading fence the pipeline's
stray-line filter deletes the bare `true` line, parsing and both repair
regexes fail, and the Planning stage fails — so the pipeline neither
returns the clean parse's list nor fails "only when no valid array can
be recovered". -/
theorem C6_counterexample :
    jsonLoads c6badBody = some (Json.arr [Json.obj [("a".data, Json.bool true)]])
      ∧ analyze_parse ("```json\n".data ++ c6badBody) = none :=
  ⟨rfl, rfl⟩

/-- C6 (amended): for a planner response that wraps an array body in an
optional leading ```` ```json ```` fence and appends trailing prose, the
pipeline returns exactly the parse of the stray-line-filtered body — the
clean list when the only damage is fencing, prose and stray short
alphabetic one-word lines between elements — provided the body starts
with `[` and ends with `]`, the prose contains no `]` and no trailing
whitespace or closing fence, and no line of the body that carries JSON
data is itself a bare alphabetic word (else the filter destroys it, and
the stage can fail even though a valid array existed). -/
theorem C6_parse_recovery (useFence : Bool) (s p : List Char) (xs : List Json)
    (hhead : s.head? = some '[')
    (hlast : s.getLast? = some ']')
    (hlen : 2 ≤ s.length)
    (hp : pyRstrip p = p)
    (hpr : ']' ∉ p)
    (hfe : "```".data.isSuffixOf (s ++ p) = false)
    (hclean : jsonLoads (removeStrayLines s) = some (Json.arr xs)) :
    analyze_parse ((if useFence then "```json\n".data else []) ++ (s ++ p))
      = some (Json.arr xs) := by
  unfold analyze_parse
  rw [cleanResponse_extract useFence hhead hlast hlen hp hpr hfe]
  show (match jsonLoads (removeStrayLines s) with
    | some v => some v
    | none => jsonLoads (pyFixJson (removeStrayLines s))) = some (Json.arr xs)
  rw [hclean]

/-- Witness for C6 (amended): the fenced response whose body contains the
stray word line `Tapi` between the two objects and ends with prose
recovers exactly the clean two-object list. -/
theorem C6_parse_recovery_witness :
    analyze_parse ("```json\n".data ++ (c6dirtyBody ++ c6prose))
      = some (Json.arr [Json.obj [("a".data, Json.str "x".data)],
                        Json.obj [("b".data, Json.str "y".data)]]) :=
  C6_parse_recovery true c6dirtyBody c6prose
    [Json.obj [("a".data, Json.str "x".data)],
     Json.obj [("b".data, Json.str "y".data)]]
    rfl rfl (by decide) rfl (by decide) rfl rfl

end Explainer
